import Mathlib

/-!
Verification of the `rich-dataframe` repository
(`src/rich_dataframe/rich_dataframe.py`).

The program builds a `rich` Table from a pandas DataFrame: it selects the
first/last `row_limit` rows and `col_limit` columns with Python slicing,
adds the columns and (stringified, re-sliced) rows to the table, then runs
a fixed sequence of styling mutations (right-justification, header colors,
per-column styles, box cycling, border color, a width animation, and three
caption updates) before returning the table.

The embedding below models the table state and every mutation step as pure
functions.  The real-time pacing (`beat` / `time.sleep`) and terminal
rendering (`rich.live.Live`) only affect timing and display, not the table
state, and are not modelled; the measured natural width of the table and
the terminal width, which the width animation reads from the environment,
are passed in as integer parameters `original_width` and `console_width`.
-/

namespace RichDataframe

/-- Python list slicing `xs[:n]` for an arbitrary integer `n`. -/
def pySliceTo (n : Int) (xs : List α) : List α :=
  if 0 ≤ n then xs.take n.toNat else xs.take (xs.length - (-n).toNat)

/-- Python list slicing `xs[-n:]` for an arbitrary integer `n`
(note `xs[-0:] = xs[0:] = xs`). -/
def pySliceFromNeg (n : Int) (xs : List α) : List α :=
  if 0 < n then xs.drop (xs.length - n.toNat) else xs.drop (-n).toNat

/-- Number of elements of Python `range(a, b, s)` for `s ≠ 0`:
`max 0 (ceil ((b - a) / s))`. -/
def pyRangeLen (a b s : Int) : Nat :=
  if 0 < s then ((b - a).toNat + s.toNat - 1) / s.toNat
  else if s < 0 then ((a - b).toNat + (-s).toNat - 1) / (-s).toNat
  else 0

/-- Python `range(a, b, s)` as a list: the values `a + s * i`
for `i < pyRangeLen a b s`. -/
def pyRange (a b s : Int) : List Int :=
  (List.range (pyRangeLen a b s)).map (fun i : Nat => a + s * (i : Int))

/-- The module-level `COLORS` list. -/
def COLORS : List String := ["cyan", "magenta", "red", "green", "blue", "purple"]

/-- `COLORS[i % len(COLORS)]` (the index is always in range). -/
def colorOf (i : Nat) : String := COLORS.getD (i % COLORS.length) ""

/-- The four `rich.box` styles used by `_adjust_box`, plus the `rich`
default `HEAVY_HEAD` that a fresh `Table` starts with. -/
inductive Box where
  | HEAVY_HEAD
  | MINIMAL
  | SIMPLE
  | SIMPLE_HEAD
  | SQUARE
deriving DecidableEq, Repr

/-- One column of a `rich` Table: header text plus the styling attributes
the program touches.  `rich` defaults: left justification, no explicit
header style / body style. -/
structure TableColumn where
  header : String
  justify : String := "left"
  header_style : Option String := none
  style : Option String := none
deriving DecidableEq, Repr

/-- The mutable `rich.table.Table` state, restricted to the attributes the
program reads or writes.  Field defaults are the `rich` defaults for a
fresh `Table(show_footer=False)`. -/
structure Table where
  columns : List TableColumn := []
  rows : List (List String) := []
  box : Option Box := some Box.HEAVY_HEAD
  border_style : Option String := none
  row_styles : List String := []
  width : Option Int := none
  caption : Option String := none
  show_footer : Bool := false
deriving DecidableEq, Repr

/-- `Table.add_column(col)` with default arguments: append a column. -/
def Table.add_column (t : Table) (header : String) : Table :=
  { t with columns := t.columns ++ [{ header := header }] }

/-- `Table.add_row(*row)`: append a row of cells. -/
def Table.add_row (t : Table) (cells : List String) : Table :=
  { t with rows := t.rows ++ [cells] }

/-- The input DataFrame: ordered column names and the list of rows
(`df.values`), cells of an arbitrary scalar type `α`. -/
structure Dataset (α : Type) where
  columns : List String
  values : List (List α)
deriving DecidableEq, Repr

/-- `df.columns[:col_limit]` or `df.columns[-col_limit:]` as in `__init__`. -/
def selectedColumns (df : Dataset α) (col_limit : Int) (first_cols : Bool) :
    List String :=
  if first_cols then pySliceTo col_limit df.columns
  else pySliceFromNeg col_limit df.columns

/-- `df.values[:row_limit]` or `df.values[-row_limit:]` as in `__init__`. -/
def selectedRows (df : Dataset α) (row_limit : Int) (first_rows : Bool) :
    List (List α) :=
  if first_rows then pySliceTo row_limit df.values
  else pySliceFromNeg row_limit df.values

/-- The state of a `DataFramePrettify` instance (the fields `__init__`
stores; `delay_time` and `num_colors` only affect pacing and are
reflected by `COLORS.length` respectively, so they are omitted). -/
structure DataFramePrettify (α : Type) where
  df : Dataset α
  table : Table
  row_limit : Int
  col_limit : Int
  first_cols : Bool
  columns : List String
  rows : List (List α)

/-- `DataFramePrettify.__init__`. -/
def DataFramePrettify.init (df : Dataset α) (row_limit col_limit : Int)
    (first_rows first_cols : Bool) : DataFramePrettify α :=
  { df := df
    table := {}
    row_limit := row_limit
    col_limit := col_limit
    first_cols := first_cols
    columns := selectedColumns df col_limit first_cols
    rows := selectedRows df row_limit first_rows }

/-- `_add_columns`: `for col in self.columns: self.table.add_column(col)`. -/
def DataFramePrettify.add_columns (p : DataFramePrettify α) :
    DataFramePrettify α :=
  { p with table := p.columns.foldl Table.add_column p.table }

/-- The row re-slicing done inside `_add_rows`:
`row[:col_limit]` or `row[-col_limit:]`. -/
def sliceRow (col_limit : Int) (first_cols : Bool) (row : List α) : List α :=
  if first_cols then pySliceTo col_limit row else pySliceFromNeg col_limit row

/-- `_add_rows`: for each selected row, re-slice it to `col_limit` cells,
stringify every cell, and append it to the table. -/
def DataFramePrettify.add_rows [ToString α] (p : DataFramePrettify α) :
    DataFramePrettify α :=
  let t := p.rows.foldl
    (fun t row =>
      t.add_row ((sliceRow p.col_limit p.first_cols row).map
        (fun item => toString item)))
    p.table
  { p with table := t }

/-- A Python loop `for i in range(len(cols)): cols[i] := f i cols[i]`,
starting at index `i`. -/
def setFrom (f : Nat → TableColumn → TableColumn) :
    Nat → List TableColumn → List TableColumn
  | _, [] => []
  | i, c :: cs => f i c :: setFrom f (i + 1) cs

/-- `_move_text_to_right`: set the justification of every column to `"right"`. -/
def DataFramePrettify.move_text_to_right (p : DataFramePrettify α) :
    DataFramePrettify α :=
  { p with table := { p.table with
      columns := setFrom (fun _ c => { c with justify := "right" }) 0
        p.table.columns } }

/-- `_add_random_color`: column `i` gets header style `COLORS[i % 6]`. -/
def DataFramePrettify.add_random_color (p : DataFramePrettify α) :
    DataFramePrettify α :=
  { p with table := { p.table with
      columns := setFrom (fun i c => { c with header_style := some (colorOf i) }) 0
        p.table.columns } }

/-- `_add_style`: column `i` gets body style `"bold " + COLORS[i % 6]`. -/
def DataFramePrettify.add_style (p : DataFramePrettify α) :
    DataFramePrettify α :=
  { p with table := { p.table with
      columns := setFrom (fun i c => { c with style := some ("bold " ++ colorOf i) }) 0
        p.table.columns } }

/-- `_adjust_box`: assign `MINIMAL`, `SIMPLE`, `SIMPLE_HEAD`, `SQUARE`
in order. -/
def DataFramePrettify.adjust_box (p : DataFramePrettify α) :
    DataFramePrettify α :=
  let t := [Box.MINIMAL, Box.SIMPLE, Box.SIMPLE_HEAD, Box.SQUARE].foldl
    (fun t b => { t with box := some b }) p.table
  { p with table := t }

/-- `_dim_row`: set `row_styles = ["none", "dim"]`.  Defined by the class
but never invoked by `prettify`. -/
def DataFramePrettify.dim_row (p : DataFramePrettify α) :
    DataFramePrettify α :=
  { p with table := { p.table with row_styles := ["none", "dim"] } }

/-- `_adjust_border_color`: set `border_style = "bright_yellow"`. -/
def DataFramePrettify.adjust_border_color (p : DataFramePrettify α) :
    DataFramePrettify α :=
  { p with table := { p.table with border_style := some "bright_yellow" } }

/-- The `width_ranges` list built inside `_change_width`. -/
def width_ranges (original_width console_width : Int) :
    List (Int × Int × Int) :=
  [(original_width, console_width, 2), (console_width, original_width, -2),
   (original_width, 90, -2), (90, original_width + 1, 2)]

/-- The sequence of values assigned to `self.table.width` by
`_change_width`: for each range, each value of `range(*width_range)`
(as `some w`), then `None`. -/
def width_assignments (original_width console_width : Int) :
    List (Option Int) :=
  ((width_ranges original_width console_width).map
    (fun wr => (pyRange wr.1 wr.2.1 wr.2.2).map some ++ [none])).flatten

/-- `_change_width`: perform all the width assignments in order.
`original_width` is `Measurement.get(console, self.table).maximum` and
`console_width` is `console.width`, both read from the environment. -/
def DataFramePrettify.change_width (p : DataFramePrettify α)
    (original_width console_width : Int) : DataFramePrettify α :=
  let t := (width_assignments original_width console_width).foldl
    (fun t w => { t with width := w }) p.table
  { p with table := t }

/-- First caption text assigned by `_add_caption`. -/
def caption_text1 (row_limit col_limit : Int) : String :=
  "Only " ++ toString row_limit ++ " rows and " ++ toString col_limit ++
    " columns is shown here."

/-- Second caption text assigned by `_add_caption`. -/
def caption_text2 (row_limit col_limit : Int) : String :=
  "Only [bold green] " ++ toString row_limit ++ " rows[/bold green] and [bold red]" ++
    toString col_limit ++ " columns[/bold red] is shown here."

/-- Third (final) caption text assigned by `_add_caption`. -/
def caption_text3 (row_limit col_limit : Int) : String :=
  "Only [bold magenta not dim] " ++ toString row_limit ++
    " rows[/bold magenta not dim] and [bold green not dim]" ++
    toString col_limit ++ " columns[/bold green not dim] are shown here."

/-- The sequence of captions assigned by `_add_caption`, in order. -/
def caption_texts (row_limit col_limit : Int) : List String :=
  [caption_text1 row_limit col_limit, caption_text2 row_limit col_limit,
   caption_text3 row_limit col_limit]

/-- `_add_caption`: assign the three captions in order. -/
def DataFramePrettify.add_caption (p : DataFramePrettify α) :
    DataFramePrettify α :=
  let t := (caption_texts p.row_limit p.col_limit).foldl
    (fun t c => { t with caption := some c }) p.table
  { p with table := t }

/-- `prettify`: run the whole transition sequence and return the table. -/
def DataFramePrettify.prettify [ToString α] (p : DataFramePrettify α)
    (original_width console_width : Int) : Table :=
  ((((((((p.add_columns).add_rows).move_text_to_right).add_random_color).add_style).adjust_box).adjust_border_color).change_width
      original_width console_width).add_caption.table

/-- `run()` of the spec: construct a `DataFramePrettify` and call
`prettify`. -/
def runTable [ToString α] (original_width console_width : Int)
    (df : Dataset α) (row_limit col_limit : Int)
    (first_rows first_cols : Bool) : Table :=
  (DataFramePrettify.init df row_limit col_limit first_rows first_cols).prettify
    original_width console_width

/-- Spec-side ascending range (step `s > 0`): starts at `a` and stops as
soon as the next value would reach or pass the excluded endpoint `b`.
The fuel `(b - a).toNat` bounds the number of iterations. -/
def specRangeUpAux (s : Int) : Nat → Int → Int → List Int
  | 0, _, _ => []
  | fuel + 1, a, b => if a < b then a :: specRangeUpAux s fuel (a + s) b else []

/-- Spec-side half-open ascending range `[a → b, step s]` for `s > 0`. -/
def specRangeUp (a b s : Int) : List Int :=
  specRangeUpAux s (b - a).toNat a b

/-- Spec-side descending range (step `s < 0`): starts at `a` and stops as
soon as the next value would reach or pass the excluded endpoint `b`. -/
def specRangeDownAux (s : Int) : Nat → Int → Int → List Int
  | 0, _, _ => []
  | fuel + 1, a, b => if b < a then a :: specRangeDownAux s fuel (a + s) b else []

/-- Spec-side half-open descending range `[a → b, step s]` for `s < 0`. -/
def specRangeDown (a b s : Int) : List Int :=
  specRangeDownAux s (a - b).toNat a b

/-- The width-animation trace as the spec describes it: the four declared ranges in order,
each followed by one reset of the width to auto (`none`). -/
def spec_width_trace (original_width console_width : Int) :
    List (Option Int) :=
  (specRangeUp original_width console_width 2).map some ++ [none] ++
    ((specRangeDown console_width original_width (-2)).map some ++ [none] ++
      ((specRangeDown original_width 90 (-2)).map some ++ [none] ++
        ((specRangeUp 90 (original_width + 1) 2).map some ++ [none])))

/-- Spec-side reading of a caption step: a decorated version of the base
text `"Only {row_limit} rows and {col_limit} columns is shown"` keeps all
the fragments of that text, in order (including `" is shown"`), with
arbitrary decoration inserted around them. -/
def isCaptionVersion (row_limit col_limit : Int) (s : String) : Prop :=
  ∃ d1 d2 d3 d4 d5,
    s = "Only " ++ d1 ++ toString row_limit ++ " rows" ++ d2 ++ " and " ++
      d3 ++ toString col_limit ++ " columns" ++ d4 ++ " is shown" ++ d5

/-- The same reading for the verb variant
`"Only {row_limit} rows and {col_limit} columns are shown"` (the third
caption in the code changes `"is"` to `"are"`). -/
def isCaptionVersionAre (row_limit col_limit : Int) (s : String) : Prop :=
  ∃ d1 d2 d3 d4 d5,
    s = "Only " ++ d1 ++ toString row_limit ++ " rows" ++ d2 ++ " and " ++
      d3 ++ toString col_limit ++ " columns" ++ d4 ++ " are shown" ++ d5

/-- The i-th column of the final table when the selected headers are
`hs`: right-justified, header color `COLORS[i % 6]`, body style
`"bold " + COLORS[i % 6]`. -/
def finalColumn (i : Nat) (h : String) : TableColumn :=
  { header := h
    justify := "right"
    header_style := some (colorOf i)
    style := some ("bold " ++ colorOf i) }

/-- The final column list, indexed from `i`. -/
def finalColumns : Nat → List String → List TableColumn
  | _, [] => []
  | i, h :: hs => finalColumn i h :: finalColumns (i + 1) hs

/-- Concrete single-column, single-row dataset used in counterexamples. -/
def dfA : Dataset Int := ⟨["a"], [[1]]⟩

/-- The concrete 3-column, 3-row dataset of the scenarios in the spec. -/
def dfB : Dataset Int := ⟨["a", "b", "c"], [[1, 2, 3], [4, 5, 6], [7, 8, 9]]⟩

/-! ### Lemmas about the Python slicing primitives -/

theorem pySliceTo_eq_take {n : Int} (h : 0 ≤ n) (xs : List α) :
    pySliceTo n xs = xs.take n.toNat := by
  simp [pySliceTo, h]

theorem pySliceFromNeg_eq_drop {n : Int} (h : 0 < n) (xs : List α) :
    pySliceFromNeg n xs = xs.drop (xs.length - n.toNat) := by
  simp [pySliceFromNeg, h]

theorem length_pySliceTo {n : Int} (h : 0 ≤ n) (xs : List α) :
    (pySliceTo n xs).length = min n.toNat xs.length := by
  rw [pySliceTo_eq_take h]
  simp

theorem length_pySliceFromNeg {n : Int} (h : 0 < n) (xs : List α) :
    (pySliceFromNeg n xs).length = min n.toNat xs.length := by
  rw [pySliceFromNeg_eq_drop h]
  simp only [List.length_drop]
  omega

theorem pySliceTo_all {n : Int} (xs : List α) (h : (xs.length : Int) ≤ n) :
    pySliceTo n xs = xs := by
  rw [pySliceTo_eq_take (by omega)]
  exact List.take_of_length_le (by omega)

theorem pySliceFromNeg_all {n : Int} (xs : List α) (h : (xs.length : Int) ≤ n) :
    pySliceFromNeg n xs = xs := by
  by_cases hn : 0 < n
  · rw [pySliceFromNeg_eq_drop hn]
    have h0 : xs.length - n.toNat = 0 := by omega
    rw [h0, List.drop_zero]
  · have hxs : xs = [] := List.length_eq_zero.mp (by omega)
    subst hxs
    unfold pySliceFromNeg
    split <;> simp

theorem length_pySliceTo_congr {n : Int} {xs : List α} {ys : List β}
    (h : xs.length = ys.length) :
    (pySliceTo n xs).length = (pySliceTo n ys).length := by
  unfold pySliceTo
  split <;> simp [h]

theorem length_pySliceFromNeg_congr {n : Int} {xs : List α} {ys : List β}
    (h : xs.length = ys.length) :
    (pySliceFromNeg n xs).length = (pySliceFromNeg n ys).length := by
  unfold pySliceFromNeg
  split <;> simp [h]

theorem pySliceTo_subset {n : Int} (xs : List α) : pySliceTo n xs ⊆ xs := by
  unfold pySliceTo
  split <;> exact List.take_subset _ _

theorem pySliceFromNeg_subset {n : Int} (xs : List α) :
    pySliceFromNeg n xs ⊆ xs := by
  unfold pySliceFromNeg
  split <;> exact List.drop_subset _ _

/-! ### Lemmas about `pyRange` and the spec-side ranges -/

theorem pyRangeLen_of_le {a b s : Int} (hs : 0 < s) (hab : b ≤ a) :
    pyRangeLen a b s = 0 := by
  unfold pyRangeLen
  rw [if_pos hs]
  have h1 : (b - a).toNat = 0 := by omega
  rw [h1]
  exact Nat.div_eq_of_lt (by omega)

theorem pyRangeLen_succ {a b s : Int} (hs : 0 < s) (hab : a < b) :
    pyRangeLen a b s = pyRangeLen (a + s) b s + 1 := by
  unfold pyRangeLen
  rw [if_pos hs, if_pos hs]
  by_cases hd : s ≤ b - a
  · have h1 : (b - a).toNat = (b - (a + s)).toNat + s.toNat := by omega
    have h2 : (b - (a + s)).toNat + s.toNat + s.toNat - 1
        = ((b - (a + s)).toNat + s.toNat - 1) + s.toNat := by omega
    rw [h1, h2, Nat.add_div_right _ (by omega)]
  · have h1 : (b - (a + s)).toNat = 0 := by omega
    have h2 : (b - a).toNat + s.toNat - 1 = ((b - a).toNat - 1) + s.toNat := by
      omega
    rw [h1, h2, Nat.add_div_right _ (by omega)]
    rw [Nat.div_eq_of_lt (by omega), Nat.div_eq_of_lt (by omega)]

theorem pyRangeLen_le_fuel {a b s : Int} (hs : 0 < s) :
    pyRangeLen a b s ≤ (b - a).toNat := by
  unfold pyRangeLen
  rw [if_pos hs]
  rcases Nat.eq_zero_or_pos (b - a).toNat with h | h
  · rw [h, Nat.div_eq_of_lt (by omega)]
  · have hk : 0 < s.toNat := by omega
    apply Nat.le_of_lt_succ
    rw [Nat.succ_eq_add_one, Nat.div_lt_iff_lt_mul hk]
    have hdk : (b - a).toNat ≤ (b - a).toNat * s.toNat :=
      Nat.le_mul_of_pos_right _ hk
    have hmul : ((b - a).toNat + 1) * s.toNat
        = (b - a).toNat * s.toNat + s.toNat := by ring
    omega

theorem pyRange_nil {a b s : Int} (hs : 0 < s) (hab : b ≤ a) :
    pyRange a b s = [] := by
  unfold pyRange
  rw [pyRangeLen_of_le hs hab]
  rfl

theorem pyRange_cons {a b s : Int} (hs : 0 < s) (hab : a < b) :
    pyRange a b s = a :: pyRange (a + s) b s := by
  unfold pyRange
  rw [pyRangeLen_succ hs hab, List.range_succ_eq_map]
  rw [List.map_cons, List.map_map]
  congr 1
  · simp
  · apply List.map_congr_left
    intro i _
    simp only [Function.comp_apply, Nat.succ_eq_add_one]
    push_cast
    ring

theorem specRangeUpAux_eq {s : Int} (hs : 0 < s) :
    ∀ (fuel : Nat) (a b : Int), pyRangeLen a b s ≤ fuel →
      specRangeUpAux s fuel a b = pyRange a b s := by
  intro fuel
  induction fuel with
  | zero =>
    intro a b h
    have h0 : pyRangeLen a b s = 0 := Nat.le_zero.mp h
    unfold specRangeUpAux pyRange
    rw [h0]
    rfl
  | succ fuel ih =>
    intro a b h
    by_cases hab : a < b
    · rw [specRangeUpAux, if_pos hab, pyRange_cons hs hab]
      have hlen : pyRangeLen (a + s) b s ≤ fuel := by
        have := pyRangeLen_succ hs hab
        omega
      rw [ih (a + s) b hlen]
    · rw [specRangeUpAux, if_neg hab, pyRange_nil hs (by omega)]

theorem specRangeUp_eq_pyRange {s : Int} (hs : 0 < s) (a b : Int) :
    specRangeUp a b s = pyRange a b s :=
  specRangeUpAux_eq hs _ a b (pyRangeLen_le_fuel hs)

theorem pyRangeLen_neg_eq {a b s : Int} (hs : s < 0) :
    pyRangeLen a b s = pyRangeLen (-a) (-b) (-s) := by
  unfold pyRangeLen
  rw [if_neg (by omega), if_pos hs, if_pos (by omega)]
  have h1 : -b - -a = a - b := by ring
  rw [h1]

theorem pyRange_neg_eq {a b s : Int} (hs : s < 0) :
    pyRange a b s = (pyRange (-a) (-b) (-s)).map (fun x => -x) := by
  unfold pyRange
  rw [pyRangeLen_neg_eq hs, List.map_map]
  apply List.map_congr_left
  intro i _
  simp only [Function.comp_apply]
  ring

theorem specRangeDownAux_eq_neg (s : Int) :
    ∀ (fuel : Nat) (a b : Int),
      specRangeDownAux s fuel a b
        = (specRangeUpAux (-s) fuel (-a) (-b)).map (fun x => -x) := by
  intro fuel
  induction fuel with
  | zero => intro a b; rfl
  | succ fuel ih =>
    intro a b
    rw [specRangeDownAux, specRangeUpAux]
    by_cases hab : b < a
    · rw [if_pos hab, if_pos (by omega), List.map_cons, neg_neg, ih (a + s) b]
      have h1 : -(a + s) = -a + -s := by ring
      rw [h1]
    · rw [if_neg hab, if_neg (by omega)]
      rfl

theorem specRangeDown_eq_pyRange {s : Int} (hs : s < 0) (a b : Int) :
    specRangeDown a b s = pyRange a b s := by
  unfold specRangeDown
  rw [specRangeDownAux_eq_neg]
  have hf : (a - b).toNat = (-b - -a).toNat := by omega
  rw [hf,
    specRangeUpAux_eq (by omega) _ (-a) (-b) (pyRangeLen_le_fuel (by omega))]
  exact (pyRange_neg_eq hs).symm

/-! ### Lemmas about the table-state folds -/

theorem foldl_add_column (cols : List String) (t : Table) :
    cols.foldl Table.add_column t
      = { t with columns := t.columns ++ cols.map (fun h => { header := h }) } := by
  induction cols generalizing t with
  | nil => simp
  | cons c cs ih =>
    rw [List.foldl_cons, ih]
    simp [Table.add_column]

theorem foldl_add_row (f : List α → List String) (rs : List (List α)) (t : Table) :
    rs.foldl (fun t row => t.add_row (f row)) t
      = { t with rows := t.rows ++ rs.map f } := by
  induction rs generalizing t with
  | nil => simp
  | cons r rs ih =>
    rw [List.foldl_cons, ih]
    simp [Table.add_row]

theorem setFrom_three (hs : List String) :
    ∀ i : Nat,
      setFrom (fun i c => { c with style := some ("bold " ++ colorOf i) }) i
        (setFrom (fun i c => { c with header_style := some (colorOf i) }) i
          (setFrom (fun _ c => { c with justify := "right" }) i
            (hs.map (fun h => { header := h }))))
        = finalColumns i hs := by
  induction hs with
  | nil => intro i; rfl
  | cons h hs ih =>
    intro i
    simp only [List.map_cons, setFrom, finalColumns, ih]
    rfl

theorem foldl_set_width_shape (l : List (Option Int)) :
    ∀ t : Table, ∃ w,
      l.foldl (fun t w => { t with width := w }) t = { t with width := w } := by
  induction l with
  | nil => intro t; exact ⟨t.width, rfl⟩
  | cons a l ih =>
    intro t
    rcases ih { t with width := a } with ⟨w, hw⟩
    exact ⟨w, by rw [List.foldl_cons, hw]⟩

theorem width_assignments_split (ow cw : Int) :
    ∃ l, width_assignments ow cw = l ++ [none] := by
  refine ⟨(pyRange ow cw 2).map some ++ [none] ++
    ((pyRange cw ow (-2)).map some ++ [none] ++
      ((pyRange ow 90 (-2)).map some ++ [none] ++
        (pyRange 90 (ow + 1) 2).map some)), ?_⟩
  unfold width_assignments width_ranges
  simp [List.append_assoc]

theorem foldl_width_assignments (ow cw : Int) (t : Table) :
    (width_assignments ow cw).foldl (fun t w => { t with width := w }) t
      = { t with width := none } := by
  rcases width_assignments_split ow cw with ⟨l, hl⟩
  rw [hl, List.foldl_append]
  rcases foldl_set_width_shape l t with ⟨w, hw⟩
  rw [hw]
  rfl

/-! ### Lemmas about the final column list -/

theorem finalColumns_length (hs : List String) :
    ∀ i, (finalColumns i hs).length = hs.length := by
  induction hs with
  | nil => intro i; rfl
  | cons h hs ih => intro i; simp [finalColumns, ih]

theorem finalColumns_header (hs : List String) :
    ∀ i, (finalColumns i hs).map TableColumn.header = hs := by
  induction hs with
  | nil => intro i; rfl
  | cons h hs ih => intro i; simp [finalColumns, finalColumn, ih]

theorem finalColumns_justify (hs : List String) :
    ∀ i, (finalColumns i hs).map TableColumn.justify
      = List.replicate hs.length "right" := by
  induction hs with
  | nil => intro i; rfl
  | cons h hs ih =>
    intro i
    simp [finalColumns, finalColumn, ih, List.replicate_succ]

theorem finalColumns_header_style (hs : List String) :
    ∀ i, (finalColumns i hs).map TableColumn.header_style
      = (List.range hs.length).map (fun j => some (colorOf (i + j))) := by
  induction hs with
  | nil => intro i; rfl
  | cons h hs ih =>
    intro i
    simp only [finalColumns, finalColumn, List.map_cons, List.length_cons,
      List.range_succ_eq_map, List.map_map]
    rw [ih (i + 1)]
    have hfun : ((fun j => some (colorOf (i + j))) ∘ Nat.succ)
        = fun j => some (colorOf (i + 1 + j)) := by
      funext j
      simp only [Function.comp_apply]
      congr 2
      omega
    rw [hfun]
    simp

/-! ### Closed form of `runTable` -/

theorem run_closed [ToString α] (ow cw : Int) (df : Dataset α)
    (rl cl : Int) (fr fc : Bool) :
    runTable ow cw df rl cl fr fc
      = { columns := finalColumns 0 (selectedColumns df cl fc)
          rows := (selectedRows df rl fr).map
            (fun row => (sliceRow cl fc row).map (fun item => toString item))
          box := some Box.SQUARE
          border_style := some "bright_yellow"
          row_styles := []
          width := none
          caption := some (caption_text3 rl cl)
          show_footer := false } := by
  simp only [runTable, DataFramePrettify.prettify, DataFramePrettify.init,
    DataFramePrettify.add_columns, DataFramePrettify.add_rows,
    DataFramePrettify.move_text_to_right, DataFramePrettify.add_random_color,
    DataFramePrettify.add_style, DataFramePrettify.adjust_box,
    DataFramePrettify.adjust_border_color, DataFramePrettify.change_width,
    DataFramePrettify.add_caption, caption_texts,
    foldl_add_column, foldl_add_row, foldl_width_assignments,
    List.foldl_cons, List.foldl_nil, List.nil_append]
  rw [setFrom_three]

theorem pySliceTo_nil (n : Int) : pySliceTo n ([] : List α) = [] := by
  unfold pySliceTo
  split <;> simp

theorem pySliceFromNeg_nil (n : Int) : pySliceFromNeg n ([] : List α) = [] := by
  unfold pySliceFromNeg
  split <;> simp

theorem map_eq_replicate {l : List γ} {g : γ → Nat} {a : Nat}
    (h : ∀ x ∈ l, g x = a) : l.map g = List.replicate l.length a := by
  induction l with
  | nil => rfl
  | cons x xs ih =>
    simp only [List.map_cons, List.length_cons, List.replicate_succ]
    rw [h x (by simp), ih (fun y hy => h y (by simp [hy]))]

/-! ### The claims -/

/-- Claim C1, counterexample.  The claim quantifies over every value of
`rowLimit`; at `rowLimit = 0` with `takeFirstRows = false` the code
computes `df.values[-0:]`, which in Python is the whole list, so the
returned row count is 1 and not `min(0, 1) = 0`. -/
theorem claim_C1_counterexample :
    ¬ ((runTable 0 0 dfA 0 1 false true).rows.length
        = min (Int.toNat 0) dfA.values.length) := by
  decide

/-- Claim C1, amended: for every dataset with at least one column and one
row, and every `rowLimit ≥ 1` and `colLimit ≥ 1` (instead of every value),
`run()` returns a Table with `min(colLimit, total columns)` columns and
`min(rowLimit, total rows)` rows, for every value of the two flags. -/
theorem claim_C1_amended [ToString α] (ow cw : Int) (df : Dataset α)
    (rl cl : Int) (fr fc : Bool)
    (hc : 1 ≤ df.columns.length) (hr : 1 ≤ df.values.length)
    (hrl : 1 ≤ rl) (hcl : 1 ≤ cl) :
    (runTable ow cw df rl cl fr fc).columns.length
        = min cl.toNat df.columns.length
      ∧ (runTable ow cw df rl cl fr fc).rows.length
        = min rl.toNat df.values.length := by
  simp only [run_closed, finalColumns_length, List.length_map]
  constructor
  · unfold selectedColumns
    cases fc
    · exact length_pySliceFromNeg (by omega) _
    · exact length_pySliceTo (by omega) _
  · unfold selectedRows
    cases fr
    · exact length_pySliceFromNeg (by omega) _
    · exact length_pySliceTo (by omega) _

theorem claim_C1_witness :
    (1 ≤ dfB.columns.length ∧ 1 ≤ dfB.values.length
      ∧ (1 : Int) ≤ 2 ∧ (1 : Int) ≤ 2)
    ∧ ((runTable 0 0 dfB 2 2 true true).columns.length
          = min ((2 : Int)).toNat dfB.columns.length
        ∧ (runTable 0 0 dfB 2 2 true true).rows.length
          = min ((2 : Int)).toNat dfB.values.length) :=
  ⟨by decide,
    claim_C1_amended 0 0 dfB 2 2 true true (by decide) (by decide)
      (by decide) (by decide)⟩

/-- Claim C2, counterexample.  At `colLimit = 0` with
`takeFirstCols = false`, "the last 0 column names" is the empty list, but
the code computes `df.columns[-0:]`, the whole column list, so the
returned headers are `["a"]`, not `[]`. -/
theorem claim_C2_counterexample :
    ¬ ((runTable 0 0 dfA 1 0 true false).columns.map TableColumn.header
        = ([] : List String)) := by
  decide

/-- Claim C2, amended: for every dataset and every `colLimit ≥ 1`
(instead of every value), the returned headers are exactly the first
`colLimit` column names when `takeFirstCols` is true and exactly the last
`colLimit` column names when it is false, in original order. -/
theorem claim_C2_amended [ToString α] (ow cw : Int) (df : Dataset α)
    (rl cl : Int) (fr fc : Bool) (hcl : 1 ≤ cl) :
    (runTable ow cw df rl cl fr fc).columns.map TableColumn.header
      = if fc then df.columns.take cl.toNat
        else df.columns.drop (df.columns.length - cl.toNat) := by
  simp only [run_closed, finalColumns_header]
  unfold selectedColumns
  cases fc
  · simp [pySliceFromNeg_eq_drop (show 0 < cl by omega)]
  · simp [pySliceTo_eq_take (show (0 : Int) ≤ cl by omega)]

theorem claim_C2_witness :
    ((1 : Int) ≤ 2)
    ∧ (runTable 0 0 dfB 1 2 true false).columns.map TableColumn.header
        = if false then dfB.columns.take ((2 : Int)).toNat
          else dfB.columns.drop (dfB.columns.length - ((2 : Int)).toNat) :=
  ⟨by decide, claim_C2_amended 0 0 dfB 1 2 true false (by decide)⟩

/-- Claim C3, counterexample.  At `rowLimit = 0` with
`takeFirstRows = false`, "the last 0 rows" is the empty list, but the
code computes `df.values[-0:]`, all rows, so the table has the row
`["1"]` instead of no rows. -/
theorem claim_C3_counterexample :
    ¬ ((runTable 0 0 dfA 0 1 false true).rows = ([] : List (List String))) := by
  decide

/-- Claim C3, amended: for every dataset and every `rowLimit ≥ 1` and
`colLimit ≥ 1` (instead of every value), the rows added to the Table are
the first (resp. last) `rowLimit` dataset rows according to
`takeFirstRows`, each re-sliced to its first (resp. last) `colLimit`
cells according to `takeFirstCols`, with every retained cell converted to
its string form. -/
theorem claim_C3_amended [ToString α] (ow cw : Int) (df : Dataset α)
    (rl cl : Int) (fr fc : Bool) (hrl : 1 ≤ rl) (hcl : 1 ≤ cl) :
    (runTable ow cw df rl cl fr fc).rows
      = (if fr then df.values.take rl.toNat
         else df.values.drop (df.values.length - rl.toNat)).map
          (fun row => (if fc then row.take cl.toNat
            else row.drop (row.length - cl.toNat)).map
              (fun item => toString item)) := by
  simp only [run_closed]
  unfold selectedRows sliceRow
  have hto : ∀ xs : List α, pySliceTo cl xs = xs.take cl.toNat :=
    fun xs => pySliceTo_eq_take (by omega) xs
  have hneg : ∀ xs : List α,
      pySliceFromNeg cl xs = xs.drop (xs.length - cl.toNat) :=
    fun xs => pySliceFromNeg_eq_drop (by omega) xs
  cases fr <;> cases fc <;>
    simp [hto, hneg, pySliceTo_eq_take (show (0 : Int) ≤ rl by omega),
      pySliceFromNeg_eq_drop (show 0 < rl by omega)]

theorem claim_C3_witness :
    ((1 : Int) ≤ 2 ∧ (1 : Int) ≤ 2)
    ∧ (runTable 0 0 dfB 2 2 true true).rows
      = (if true then dfB.values.take ((2 : Int)).toNat
         else dfB.values.drop (dfB.values.length - ((2 : Int)).toNat)).map
          (fun row => (if true then row.take ((2 : Int)).toNat
            else row.drop (row.length - ((2 : Int)).toNat)).map
              (fun item => toString item)) :=
  ⟨by decide, claim_C3_amended 0 0 dfB 2 2 true true (by decide) (by decide)⟩

/-- Claim C4: on the dataset with columns `["a","b","c"]` and rows
`[[1,2,3],[4,5,6],[7,8,9]]`, running with `rowLimit=2, colLimit=2,
takeFirstRows=true, takeFirstCols=true` yields columns `["a","b"]`, rows
`[["1","2"],["4","5"]]` and header colors `cyan, magenta`; with
`takeFirstCols=false` it yields columns `["b","c"]`. -/
theorem claim_C4 :
    ((runTable 0 0 dfB 2 2 true true).columns.map TableColumn.header
        = ["a", "b"]
      ∧ (runTable 0 0 dfB 2 2 true true).rows = [["1", "2"], ["4", "5"]]
      ∧ (runTable 0 0 dfB 2 2 true true).columns.map TableColumn.header_style
        = [some "cyan", some "magenta"])
    ∧ (runTable 0 0 dfB 2 2 true false).columns.map TableColumn.header
        = ["b", "c"] := by
  decide

/-- Claim C5: `run()` is deterministic (always returns the same final
state on the same inputs), and that final state is right-justified in
every column, has header color `COLORS[i % 6]` on column `i`, square box,
`"bright_yellow"` border, auto (unset) width, and the final caption. -/
theorem claim_C5 [ToString α] (ow cw : Int) (df : Dataset α)
    (rl cl : Int) (fr fc : Bool) :
    runTable ow cw df rl cl fr fc = runTable ow cw df rl cl fr fc
    ∧ (runTable ow cw df rl cl fr fc).columns.map TableColumn.justify
        = List.replicate (runTable ow cw df rl cl fr fc).columns.length "right"
    ∧ (runTable ow cw df rl cl fr fc).columns.map TableColumn.header_style
        = (List.range (runTable ow cw df rl cl fr fc).columns.length).map
            (fun i => some (colorOf i))
    ∧ (runTable ow cw df rl cl fr fc).box = some Box.SQUARE
    ∧ (runTable ow cw df rl cl fr fc).border_style = some "bright_yellow"
    ∧ (runTable ow cw df rl cl fr fc).width = none
    ∧ (runTable ow cw df rl cl fr fc).caption = some (caption_text3 rl cl) := by
  simp only [run_closed]
  refine ⟨by trivial, ?_, ?_, by trivial, by trivial, by trivial, by trivial⟩
  · rw [finalColumns_length, finalColumns_justify]
  · rw [finalColumns_length, finalColumns_header_style]
    apply List.map_congr_left
    intro j _
    simp

/-- Claim C6: the width animation assigns exactly the four numeric ranges
`[originalWidth → terminalWidth, +2]`, `[terminalWidth → originalWidth,
−2]`, `[originalWidth → 90, −2]`, `[90 → originalWidth+1, +2]` in order,
with half-open range semantics (iteration stops when the next value would
reach or pass the excluded endpoint given the step sign), resetting the
width to auto after each full range. -/
theorem claim_C6 (original_width console_width : Int) :
    width_assignments original_width console_width
      = spec_width_trace original_width console_width := by
  unfold width_assignments width_ranges spec_width_trace
  simp only [specRangeUp_eq_pyRange (show (0 : Int) < 2 by norm_num),
    specRangeDown_eq_pyRange (show (-2 : Int) < 0 by norm_num)]
  simp [List.append_assoc]

set_option maxRecDepth 4000 in
/-- Claim C7, counterexample.  The claim says every caption step is a
progressively more decorated version of the text
`"Only {rowLimit} rows and {colLimit} columns is shown"`, but the third
caption the code assigns reads `"... are shown here."`: it does not
contain the fragment `" is shown"` at all, so at
`rowLimit = colLimit = 2` the third step is not a decorated version of
the quoted base text. -/
theorem claim_C7_counterexample :
    caption_text3 2 2 ∈ caption_texts 2 2
      ∧ ¬ isCaptionVersion 2 2 (caption_text3 2 2) := by
  constructor
  · simp [caption_texts]
  · intro h
    obtain ⟨d1, d2, d3, d4, d5, h⟩ := h
    have hinf : (" is shown" : String).data <:+: (caption_text3 2 2).data := by
      rw [h]
      refine ⟨("Only " ++ d1 ++ toString (2 : Int) ++ " rows" ++ d2 ++ " and "
        ++ d3 ++ toString (2 : Int) ++ " columns" ++ d4).data, d5.data, ?_⟩
      simp [String.data_append, List.append_assoc]
    exact (by decide :
      ¬ ((" is shown" : String).data <:+: (caption_text3 2 2).data)) hinf

/-- Claim C7 (amended): the caption is assigned in exactly three
successive steps; the first two are progressively longer decorated
versions of the text `"Only {rowLimit} rows and {colLimit} columns is
shown"`, while the third (final) step is a decorated version of the
variant with the verb changed to `"are"` (`"Only {rowLimit} rows and
{colLimit} columns are shown"`), still longer than the second; the final
version uses the two distinct emphasis colors `magenta` and `green`. -/
theorem claim_C7_amended (rl cl : Int) :
    caption_texts rl cl
        = [caption_text1 rl cl, caption_text2 rl cl, caption_text3 rl cl]
    ∧ (caption_texts rl cl).length = 3
    ∧ (caption_text1 rl cl).length < (caption_text2 rl cl).length
    ∧ (caption_text2 rl cl).length < (caption_text3 rl cl).length
    ∧ isCaptionVersion rl cl (caption_text1 rl cl)
    ∧ isCaptionVersion rl cl (caption_text2 rl cl)
    ∧ isCaptionVersionAre rl cl (caption_text3 rl cl)
    ∧ (∃ pre mid post, caption_text3 rl cl
          = pre ++ "magenta" ++ mid ++ "green" ++ post)
    ∧ ("magenta" : String) ≠ "green" := by
  refine ⟨rfl, rfl, ?_, ?_, ?_, ?_, ?_, ?_, by decide⟩
  · simp only [caption_text1, caption_text2, String.length_append]
    have e1 : ("Only " : String).length = 5 := by decide
    have e2 : (" rows and " : String).length = 10 := by decide
    have e3 : (" columns is shown here." : String).length = 23 := by decide
    have e4 : ("Only [bold green] " : String).length = 18 := by decide
    have e5 : (" rows[/bold green] and [bold red]" : String).length = 33 := by
      decide
    have e6 : (" columns[/bold red] is shown here." : String).length = 34 := by
      decide
    omega
  · simp only [caption_text2, caption_text3, String.length_append]
    have e4 : ("Only [bold green] " : String).length = 18 := by decide
    have e5 : (" rows[/bold green] and [bold red]" : String).length = 33 := by
      decide
    have e6 : (" columns[/bold red] is shown here." : String).length = 34 := by
      decide
    have e7 : ("Only [bold magenta not dim] " : String).length = 28 := by decide
    have e8 :
        (" rows[/bold magenta not dim] and [bold green not dim]" : String).length
          = 53 := by decide
    have e9 :
        (" columns[/bold green not dim] are shown here." : String).length
          = 45 := by decide
    omega
  · refine ⟨"", "", "", "", " here.", ?_⟩
    apply String.ext
    simp [caption_text1, String.data_append]
  · refine ⟨"[bold green] ", "[/bold green]", "[bold red]",
      "[/bold red]", " here.", ?_⟩
    apply String.ext
    simp [caption_text2, String.data_append]
  · refine ⟨"[bold magenta not dim] ", "[/bold magenta not dim]",
      "[bold green not dim]", "[/bold green not dim]", " here.", ?_⟩
    apply String.ext
    simp [caption_text3, String.data_append]
  · refine ⟨"Only [bold ",
      " not dim] " ++ toString rl ++ " rows[/bold magenta not dim] and [bold ",
      " not dim]" ++ toString cl
        ++ " columns[/bold green not dim] are shown here.", ?_⟩
    apply String.ext
    simp [caption_text3, String.data_append]

/-- Claim C8: oversized limits degrade to "all available": if `rowLimit`
is at least the row count then all rows are returned, and if `colLimit`
is at least the column count then all column names are returned; on the
empty dataset the result has no columns and no rows.  (Absence of runtime
errors is reflected by the embedding being total.) -/
theorem claim_C8 [ToString α] (ow cw : Int) (df : Dataset α)
    (rl cl : Int) (fr fc : Bool) :
    ((df.values.length : Int) ≤ rl →
      (runTable ow cw df rl cl fr fc).rows.length = df.values.length)
    ∧ ((df.columns.length : Int) ≤ cl →
      (runTable ow cw df rl cl fr fc).columns.map TableColumn.header
        = df.columns)
    ∧ (runTable ow cw (Dataset.mk [] ([] : List (List α))) rl cl fr fc).columns
        = []
    ∧ (runTable ow cw (Dataset.mk [] ([] : List (List α))) rl cl fr fc).rows
        = [] := by
  refine ⟨?_, ?_, ?_, ?_⟩
  · intro h
    simp only [run_closed, List.length_map]
    unfold selectedRows
    cases fr
    · rw [pySliceFromNeg_all _ h]
      simp
    · rw [pySliceTo_all _ h]
      simp
  · intro h
    simp only [run_closed, finalColumns_header]
    unfold selectedColumns
    cases fc
    · exact pySliceFromNeg_all _ h
    · exact pySliceTo_all _ h
  · simp only [run_closed]
    unfold selectedColumns
    cases fc <;> simp [pySliceTo_nil, pySliceFromNeg_nil, finalColumns]
  · simp only [run_closed]
    unfold selectedRows
    cases fr <;> simp [pySliceTo_nil, pySliceFromNeg_nil]

theorem claim_C8_witness :
    (runTable 0 0 dfB 5 5 true true).rows.length = dfB.values.length
    ∧ (runTable 0 0 dfB 5 5 true true).columns.map TableColumn.header
        = dfB.columns
    ∧ (runTable 0 0 (Dataset.mk [] ([] : List (List Int))) 5 5 true true).columns
        = []
    ∧ (runTable 0 0 (Dataset.mk [] ([] : List (List Int))) 5 5 true true).rows
        = [] := by
  have h := claim_C8 0 0 dfB 5 5 true true
  exact ⟨h.1 (by decide), h.2.1 (by decide), h.2.2.1, h.2.2.2⟩

/-- Claim C9: on a rectangular dataset every appended row has exactly as
many cells as the Table has columns (stated as: the list of row lengths
is constantly the column count). -/
theorem claim_C9 [ToString α] (ow cw : Int) (df : Dataset α)
    (rl cl : Int) (fr fc : Bool)
    (hrect : ∀ r ∈ df.values, r.length = df.columns.length) :
    (runTable ow cw df rl cl fr fc).rows.map List.length
      = List.replicate (runTable ow cw df rl cl fr fc).rows.length
          (runTable ow cw df rl cl fr fc).columns.length := by
  simp only [run_closed, List.map_map, List.length_map, finalColumns_length]
  apply map_eq_replicate
  intro r hr
  have hmem : r ∈ df.values := by
    unfold selectedRows at hr
    cases fr
    · exact pySliceFromNeg_subset _ hr
    · exact pySliceTo_subset _ hr
  have hlen : r.length = df.columns.length := hrect r hmem
  simp only [Function.comp_apply, List.length_map]
  unfold sliceRow selectedColumns
  cases fc
  · exact length_pySliceFromNeg_congr hlen
  · exact length_pySliceTo_congr hlen

theorem claim_C9_witness :
    (runTable 0 0 dfB 2 2 true true).rows.map List.length
      = List.replicate (runTable 0 0 dfB 2 2 true true).rows.length
          (runTable 0 0 dfB 2 2 true true).columns.length :=
  claim_C9 0 0 dfB 2 2 true true (by decide)

/-- Claim C10: `run()` never modifies the per-row style cycle: the
returned Table keeps the `row_styles` value of a fresh Table (the empty
list), while the defined-but-never-invoked `_dim_row` step would have set
it to `["none", "dim"]`. -/
theorem claim_C10 [ToString α] (ow cw : Int) (df : Dataset α)
    (rl cl : Int) (fr fc : Bool) (p : DataFramePrettify α) :
    (runTable ow cw df rl cl fr fc).row_styles = ({} : Table).row_styles
    ∧ (runTable ow cw df rl cl fr fc).row_styles = []
    ∧ (p.dim_row).table.row_styles = ["none", "dim"] :=
  ⟨by rw [run_closed], by rw [run_closed], rfl⟩

end RichDataframe
